import Mathlib

/-!
Verification of the MichiStrobe music-reactive visual engine.

The development shallowly embeds the two core components of the repository:

* the audio feature extractor of `src/hooks/useAudioAnalyzer.ts`
  (the per-tick reduction of a byte frequency buffer into the four scalar
  features `volume`, `bass`, `mid`, `treble`, and the `start`/`stop`
  lifecycle of the capture session), and
* the canvas renderer of `src/components/Visualizers.tsx`
  (the three modes `pure`, `cubic`, `waves`, rendered as an explicit list
  of drawing operations, together with the particle state of mode `cubic`).

JavaScript numbers are embedded as rationals (`ℚ`); byte samples as `ℕ`.
The platform-supplied impurities (`Math.random`, `Math.sin`, `Math.PI`,
`Date.now`) are passed in as explicit parameters, so every definition is
executable.
-/

namespace MichiStrobe

/-! ### Feature extraction (src/hooks/useAudioAnalyzer.ts) -/

/-- The four mutable accumulators of the per-tick feature loop in `update`:
`volume`, `bass`, `mid`, `treble`, all starting at `0`. -/
structure LoopAcc where
  volume : ℕ
  bass : ℕ
  mid : ℕ
  treble : ℕ
deriving DecidableEq, Repr

/-- The loop `for (let i = 0; i < data.length; i++) { ... }` of `update`:
`volume += data[i]`; if `i < data.length * 0.15` the sample updates the
`bass` peak (`if (data[i] > bass) bass = data[i]`), else if
`i < data.length * 0.5` it is added to `mid`, else to `treble`.
`L` is `data.length`, `i` the index of the head of `l`. -/
def loopGo (L : ℕ) : ℕ → List ℕ → LoopAcc → LoopAcc
  | _, [], acc => acc
  | i, v :: rest, acc =>
      let acc1 : LoopAcc := { acc with volume := acc.volume + v }
      let acc2 : LoopAcc :=
        if (i : ℚ) < (L : ℚ) * (15 / 100) then
          { acc1 with bass := max acc1.bass v }
        else if (i : ℚ) < (L : ℚ) * (1 / 2) then
          { acc1 with mid := acc1.mid + v }
        else
          { acc1 with treble := acc1.treble + v }
      loopGo L (i + 1) rest acc2

/-- The whole accumulation loop of `update`, run over a frequency buffer. -/
def runLoop (data : List ℕ) : LoopAcc :=
  loopGo data.length 0 data ⟨0, 0, 0, 0⟩

/-- The `AudioData` record published by `setAudioData` in `update`. -/
structure AudioData where
  volume : ℚ
  bass : ℚ
  mid : ℚ
  treble : ℚ
  frequencyData : List ℕ
  timeData : List ℕ
deriving DecidableEq, Repr

/-- The snapshot published by one `update` tick:
`volume / count / 255`, `bass / 255`, `mid / (count * 0.35) / 255`,
`treble / (count * 0.5) / 255`, plus copies of the two sample buffers. -/
def computeAudioData (freq time : List ℕ) : AudioData :=
  let acc := runLoop freq
  let count : ℚ := freq.length
  { volume := (acc.volume : ℚ) / count / 255
    bass := (acc.bass : ℚ) / 255
    mid := (acc.mid : ℚ) / (count * (35 / 100)) / 255
    treble := (acc.treble : ℚ) / (count * (1 / 2)) / 255
    frequencyData := freq
    timeData := time }

/-- Number of indices `i` with `(i : ℚ) < L * 0.15` — the exclusive upper
bound of the bass slice of the loop. -/
def bassCut (L : ℕ) : ℕ := Nat.ceil ((L : ℚ) * (15 / 100))

/-- Number of indices `i` with `(i : ℚ) < L * 0.5` — the exclusive upper
bound of the mid slice (and start of the treble slice) of the loop. -/
def midCut (L : ℕ) : ℕ := Nat.ceil ((L : ℚ) * (1 / 2))

/-- `foldr max 0`: the maximum of a list of naturals (0 when empty),
mirroring the running `bass` peak. -/
def maxL (l : List ℕ) : ℕ := l.foldr max 0

/-! ### Capture-session lifecycle (src/hooks/useAudioAnalyzer.ts) -/

/-- The mutable state of `useAudioAnalyzer`: the published snapshot
(`audioData` React state) and the six refs.  The context, analyzer and
source handles and the scheduled animation frame are modelled as presence
flags; the two sample buffers keep their contents. -/
structure ExtractorState where
  audioData : Option AudioData
  audioContext : Bool
  analyzer : Bool
  source : Bool
  dataArray : Option (List ℕ)
  timeArray : Option (List ℕ)
  animationFrame : Bool
deriving DecidableEq, Repr

/-- The state before any activation: no snapshot, all refs null. -/
def initialState : ExtractorState :=
  { audioData := none
    audioContext := false
    analyzer := false
    source := false
    dataArray := none
    timeArray := none
    animationFrame := false }

/-- `start`: returns unchanged if a context already exists; then awaits
`getUserMedia`.  `micOk` is whether the platform grants the microphone —
when it rejects, the `catch` only logs, so the state is unchanged (every
ref assignment in the `try` block comes after the `await`).  On success the
session handles are installed and `update` runs once with the analyzer's
current buffers `freq`/`time`, publishing a snapshot and scheduling the
next frame. -/
def start (micOk : Bool) (freq time : List ℕ) (s : ExtractorState) :
    ExtractorState :=
  if s.audioContext then s
  else if micOk then
    { audioData := some (computeAudioData freq time)
      audioContext := true
      analyzer := true
      source := true
      dataArray := some freq
      timeArray := some time
      animationFrame := true }
  else s

/-- `stop`: cancels the scheduled frame, closes the context, stops the
stream tracks, nulls every ref and clears the published snapshot.  Each
branch is guarded by a null check in the source, but its effect on the
modelled state is the same either way: the field ends cleared. -/
def stop (s : ExtractorState) : ExtractorState :=
  { s with
    animationFrame := false
    audioContext := false
    source := false
    analyzer := false
    dataArray := none
    timeArray := none
    audioData := none }

end MichiStrobe


namespace MichiStrobe

/-! ### Renderer (src/components/Visualizers.tsx) -/

/-- The three visualizer modes. -/
inductive Mode
  | pure
  | cubic
  | waves
deriving DecidableEq, Repr

/-- One canvas-context drawing operation, as issued by the `render`
closure.  Colors are kept symbolic: `fillStyleRGBA r g b a` is
`ctx.fillStyle = 'rgba(r, g, b, a)'` (`'#000'` is `fillStyleRGBA 0 0 0 1`
and `'#fff'` is 255s), `fillStyleHSL h s l` is
`ctx.fillStyle = 'hsl(h, s%, l%)'`, and likewise for stroke and shadow
colors. -/
inductive DrawOp
  | fillStyleRGBA (r g b : ℕ) (a : ℚ)
  | fillStyleHSL (h s l : ℚ)
  | strokeStyleRGBA (r g b : ℕ) (a : ℚ)
  | strokeStyleHSLA (h s l a : ℚ)
  | shadowColorHSL (h s l : ℚ)
  | shadowColorHSLA (h s l a : ℚ)
  | shadowBlur (b : ℚ)
  | fillRect (x y w h : ℚ)
  | strokeRect (x y w h : ℚ)
  | lineWidth (w : ℚ)
  | lineCapRound
  | beginPath
  | moveTo (x y : ℚ)
  | lineTo (x y : ℚ)
  | stroke
  | arc (x y r a0 a1 : ℚ)
  | save
  | restore
  | translate (x y : ℚ)
  | rotate (a : ℚ)
deriving DecidableEq, Repr

/-- JavaScript's `%` on numbers: `a - b * trunc(a / b)` (remainder with
truncated quotient).  Used for `(Date.now() / 5) % 360` and the waves hue. -/
def jsMod (a b : ℚ) : ℚ :=
  let q := a / b
  a - b * ((q.num / (q.den : ℤ) : ℤ) : ℚ)

/-- One particle of mode `cubic` (the objects pushed by the
`Array.from({ length: 45 }, ...)` initializer).  The source stores
`color: 'hsl(hue, 90%, 60%)'`; here only the hue is kept and the fixed
saturation/lightness are re-attached at the draw sites. -/
structure Particle where
  x : ℚ
  y : ℚ
  size : ℚ
  vx : ℚ
  vy : ℚ
  hue : ℚ
  rotation : ℚ
  rv : ℚ
deriving DecidableEq, Repr

/-- The particle initializer for mode `cubic`: 45 particles.  `gen`
abstracts the body of the `Array.from` callback (its `Math.random()` draws
for position, size, velocity, hue and rotation). -/
def initParticles (gen : ℕ → Particle) : List Particle :=
  (List.range 45).map gen

/-- The guarded initialization in the effect body:
`if (mode === 'cubic' && particlesRef.current.length === 0)` the particle
set is created, otherwise the existing set is kept. -/
def setupParticles (mode : Mode) (gen : ℕ → Particle) (ps : List Particle) :
    List Particle :=
  if mode = Mode.cubic ∧ ps.length = 0 then initParticles gen else ps

/-- The per-tick mutation of one particle in mode `cubic`: position is
integrated with the bass-scaled velocity, rotation with the treble-scaled
rotational velocity, then the bounce check negates a velocity component
when the (already moved) position is outside the canvas — the position
itself is not clamped. -/
def updateParticle (bass treble w h : ℚ) (p : Particle) : Particle :=
  let x := p.x + p.vx * (1 + bass * 8)
  let y := p.y + p.vy * (1 + bass * 8)
  let rotation := p.rotation + p.rv * (1 + treble * 5)
  let vx := if x < 0 ∨ x > w then -p.vx else p.vx
  let vy := if y < 0 ∨ y > h then -p.vy else p.vy
  { p with x := x, y := y, rotation := rotation, vx := vx, vy := vy }

/-- The drawing operations issued for one (already updated) particle in
mode `cubic`.  `hueShift` is computed from `mid` in the source but never
used afterwards. -/
def particleOps (bass mid : ℚ) (p : Particle) : List DrawOp :=
  let scale := 1 + bass * (3 / 2)
  let hueShift := mid * 100
  let s := p.size * scale
  [DrawOp.save, DrawOp.translate p.x p.y, DrawOp.rotate p.rotation,
   DrawOp.fillStyleHSL p.hue 90 60,
   DrawOp.shadowBlur (20 * bass),
   DrawOp.shadowColorHSL p.hue 90 60,
   DrawOp.fillRect (-(s / 2)) (-(s / 2)) s s,
   DrawOp.strokeStyleRGBA 255 255 255 (3 / 10 + bass * (7 / 10)),
   DrawOp.lineWidth 2,
   DrawOp.strokeRect (-(s / 2)) (-(s / 2)) s s,
   DrawOp.fillStyleRGBA 255 255 255 (1 / 10),
   DrawOp.fillRect (-(s / 4)) (-(s / 4)) (s / 2) (s / 2),
   DrawOp.restore]

/-- Mode `pure`: fade, volume pulse, and on `bass > 0.5` a full-screen
color flash, with glitch lines on `bass > 0.8`.  `now` is `Date.now()`,
`rand i` the `Math.random()` draw of glitch line `i`. -/
def renderPure (now : ℚ) (rand : ℕ → ℚ) (w h volume bass : ℚ) :
    List DrawOp :=
  [DrawOp.fillStyleRGBA 0 0 0 (1 / 4), DrawOp.fillRect 0 0 w h,
   DrawOp.fillStyleRGBA 255 255 255 (volume * (1 / 10)),
   DrawOp.fillRect 0 0 w h]
  ++ (if bass > 1 / 2 then
        [DrawOp.fillStyleHSL (jsMod (now / 5) 360) 100 60,
         DrawOp.fillRect 0 0 w h]
        ++ (if bass > 8 / 10 then
              [DrawOp.strokeStyleRGBA 255 255 255 1, DrawOp.lineWidth 15]
              ++ (List.range 8).flatMap (fun i =>
                    [DrawOp.beginPath, DrawOp.moveTo 0 (rand i * h),
                     DrawOp.lineTo w (rand i * h), DrawOp.stroke])
            else [])
      else [])

/-- Mode `cubic`: background fade, then each particle is updated and
drawn; returns the ops together with the mutated particle set. -/
def renderCubic (bass treble mid w h : ℚ) (ps : List Particle) :
    List DrawOp × List Particle :=
  let upd := ps.map (updateParticle bass treble w h)
  ([DrawOp.fillStyleRGBA 0 0 0 (2 / 10), DrawOp.fillRect 0 0 w h]
     ++ upd.flatMap (particleOps bass mid),
   upd)

/-- The five layer hues of modes `cubic` (init) and `waves`. -/
def modernHues : List ℕ := [260, 180, 320, 20, 200]

/-- Mode `waves`: five layered frequency ribbons and a central pulse
circle.  `sinf` abstracts `Math.sin`, `piq` abstracts `Math.PI`. -/
def renderWaves (now : ℚ) (sinf : ℚ → ℚ) (piq : ℚ)
    (w h volume bass : ℚ) (freq : List ℕ) : List DrawOp :=
  let sliceWidth := w / ((freq.length : ℚ) / 2)
  let halfCount := (freq.length + 1) / 2
  [DrawOp.fillStyleRGBA 0 0 0 (12 / 100), DrawOp.fillRect 0 0 w h]
  ++ (modernHues.enum).flatMap (fun jb =>
       let j := jb.1
       let hue := jsMod ((jb.2 : ℚ) + sinf (now * (1 / 1000)) * 20) 360
       [DrawOp.beginPath,
        DrawOp.strokeStyleHSLA hue 90 60 (1 / 2 + bass * (1 / 2)),
        DrawOp.lineWidth (3 + volume * 20),
        DrawOp.lineCapRound,
        DrawOp.shadowBlur (15 * volume),
        DrawOp.shadowColorHSLA hue 90 60 (6 / 10)]
       ++ (List.range halfCount).flatMap (fun i =>
            let v : ℚ := (freq.getD i 0 : ℚ) / 128
            let offset := sinf ((i : ℚ) * (12 / 100) + now * (3 / 1000) + (j : ℚ))
              * 120 * bass
            let y := h / 2 - v * h / 4 + offset
            if i = 0 then [DrawOp.moveTo 0 y]
            else [DrawOp.lineTo ((i : ℚ) * sliceWidth) y])
       ++ [DrawOp.stroke])
  ++ [DrawOp.beginPath,
      DrawOp.arc (w / 2) (h / 2) (50 + bass * 150) 0 (piq * 2),
      DrawOp.strokeStyleRGBA 255 255 255 (bass * (3 / 10)),
      DrawOp.lineWidth 2, DrawOp.stroke]

/-- One run of the `render` closure: black frame when no snapshot,
otherwise the four features are scaled by `sensitivity` and clamped with
`Math.min(1, ·)`, and the mode branch is rendered.  Returns the issued
ops and the (possibly mutated) particle set. -/
def renderFrame (mode : Mode) (audioData : Option AudioData)
    (sensitivity : ℚ) (now : ℚ) (rand : ℕ → ℚ) (sinf : ℚ → ℚ) (piq : ℚ)
    (w h : ℚ) (ps : List Particle) : List DrawOp × List Particle :=
  match audioData with
  | none => ([DrawOp.fillStyleRGBA 0 0 0 1, DrawOp.fillRect 0 0 w h], ps)
  | some a =>
    let volume := min 1 (a.volume * sensitivity)
    let bass := min 1 (a.bass * sensitivity)
    let mid := min 1 (a.mid * sensitivity)
    let treble := min 1 (a.treble * sensitivity)
    match mode with
    | Mode.pure => (renderPure now rand w h volume bass, ps)
    | Mode.cubic => renderCubic bass treble mid w h ps
    | Mode.waves => (renderWaves now sinf piq w h volume bass a.frequencyData, ps)

/-- The 5-segment signal-strength indicator in `App`: segment `i` is
rendered as lit (`bg-emerald-400`) exactly when
`audioData.volume * 5 > i`. -/
def segmentLit (volume : ℚ) (i : ℕ) : Bool :=
  decide (volume * 5 > (i : ℚ))

/-- The published-bass formula as the claim words it (for comparison with
`computeAudioData`): the maximum over exactly the indices
`0 .. ⌊0.15 * N⌋ - 1`, divided by 255. -/
def bassFloorSlice (data : List ℕ) : ℚ :=
  (maxL (data.take (Nat.floor ((data.length : ℚ) * (15 / 100)))) : ℚ) / 255

/-- The 128-bin buffer with a single spike at index 19 (all other bins 0),
distinguishing the ceil slice of the loop from the claimed floor slice. -/
def spike19 : List ℕ :=
  (List.range 128).map fun i => if i = 19 then 255 else 0

end MichiStrobe

namespace MichiStrobe

/-! ### Basic lemmas about the extraction loop -/

theorem bassCut_le_midCut (L : ℕ) : bassCut L ≤ midCut L := by
  apply Nat.ceil_le_ceil
  have hL : (0 : ℚ) ≤ (L : ℚ) := Nat.cast_nonneg L
  nlinarith

theorem lt_bassCut_iff (L i : ℕ) :
    ((i : ℚ) < (L : ℚ) * (15 / 100)) ↔ i < bassCut L := by
  rw [bassCut, Nat.lt_ceil]

theorem lt_midCut_iff (L i : ℕ) :
    ((i : ℚ) < (L : ℚ) * (1 / 2)) ↔ i < midCut L := by
  rw [midCut, Nat.lt_ceil]

theorem loopGo_spec (L : ℕ) (l : List ℕ) : ∀ (i : ℕ) (acc : LoopAcc),
    loopGo L i l acc =
      { volume := acc.volume + l.sum
        bass := max acc.bass (maxL (l.take (bassCut L - i)))
        mid := acc.mid + ((l.take (midCut L - i)).drop (bassCut L - i)).sum
        treble := acc.treble + (l.drop (midCut L - i)).sum } := by
  induction l with
  | nil => intro i acc; simp [loopGo, maxL]
  | cons v rest ih =>
    intro i acc
    by_cases hB : (i : ℚ) < (L : ℚ) * (15 / 100)
    · have hiB : i < bassCut L := (lt_bassCut_iff L i).mp hB
      have hiM : i < midCut L := lt_of_lt_of_le hiB (bassCut_le_midCut L)
      have eB : bassCut L - i = (bassCut L - (i + 1)) + 1 := by omega
      have eM : midCut L - i = (midCut L - (i + 1)) + 1 := by omega
      simp only [loopGo, if_pos hB]
      rw [ih]
      simp only [eB, eM, List.take_succ_cons, List.drop_succ_cons, List.sum_cons,
        LoopAcc.mk.injEq, maxL, List.foldr_cons]
      exact ⟨by omega, max_assoc _ _ _, trivial, trivial⟩
    · by_cases hM : (i : ℚ) < (L : ℚ) * (1 / 2)
      · have hiB : ¬ i < bassCut L := fun h => hB ((lt_bassCut_iff L i).mpr h)
        have hiM : i < midCut L := (lt_midCut_iff L i).mp hM
        have eB : bassCut L - i = 0 := by omega
        have eB1 : bassCut L - (i + 1) = 0 := by omega
        have eM : midCut L - i = (midCut L - (i + 1)) + 1 := by omega
        simp only [loopGo, if_neg hB, if_pos hM]
        rw [ih]
        simp only [eB, eB1, eM, List.take_succ_cons, List.drop_succ_cons,
          List.take_zero, List.drop_zero, List.sum_cons, LoopAcc.mk.injEq]
        exact ⟨by omega, trivial, by omega, trivial⟩
      · have hiB : ¬ i < bassCut L := fun h => hB ((lt_bassCut_iff L i).mpr h)
        have hiM : ¬ i < midCut L := fun h => hM ((lt_midCut_iff L i).mpr h)
        have eB : bassCut L - i = 0 := by omega
        have eB1 : bassCut L - (i + 1) = 0 := by omega
        have eM : midCut L - i = 0 := by omega
        have eM1 : midCut L - (i + 1) = 0 := by omega
        simp only [loopGo, if_neg hB, if_neg hM]
        rw [ih]
        simp only [eB, eB1, eM, eM1, List.take_zero, List.drop_zero,
          List.sum_cons, LoopAcc.mk.injEq]
        exact ⟨by omega, trivial, trivial, by omega⟩

/-- Closed form of one extraction tick: each published feature as a
slice of the input buffer. -/
theorem computeAudioData_eq (f t : List ℕ) :
    computeAudioData f t =
      { volume := (f.sum : ℚ) / (f.length : ℚ) / 255
        bass := (maxL (f.take (bassCut f.length)) : ℚ) / 255
        mid := (((f.take (midCut f.length)).drop (bassCut f.length)).sum : ℚ) /
          ((f.length : ℚ) * (35 / 100)) / 255
        treble := ((f.drop (midCut f.length)).sum : ℚ) /
          ((f.length : ℚ) * (1 / 2)) / 255
        frequencyData := f
        timeData := t } := by
  unfold computeAudioData runLoop
  rw [loopGo_spec]
  simp

/-! ### Claims about the session lifecycle and renderer -/

/-- **C5.** When microphone access is denied, `start` leaves the extractor
state exactly as before the call — no snapshot is ever published and no
partial session remains (every ref assignment in the `try` block follows
the failing `await`, and the `catch` only logs, so nothing escapes into
the render path; `start` is total in the embedding).  From the
pre-activation state a subsequent `stop` is a no-op. -/
theorem start_denied_no_effect (freq time : List ℕ) (s : ExtractorState) :
    start false freq time s = s
    ∧ (start false freq time s).audioData = s.audioData
    ∧ stop (start false freq time initialState) = initialState := by
  have h : start false freq time s = s := by
    unfold start
    split
    · rfl
    · rfl
  have h0 : start false freq time initialState = initialState := by
    unfold start
    rfl
  exact ⟨h, by rw [h], by rw [h0]; rfl⟩

/-- **C5 witness.** The theorem applied at a concrete denied activation
from the pre-activation state. -/
theorem start_denied_no_effect_witness :
    start false (List.replicate 128 0) (List.replicate 128 0) initialState
      = initialState := (start_denied_no_effect _ _ _).1

/-- **C6.** `stop` is idempotent and safe pre-activation: from any state
two calls end where one does, every handle and buffer ref is cleared, the
published snapshot is `none`, and calling it on the never-started state is
a no-op.  (`stop` never throws: close errors are caught and logged in the
source, and the embedding is total.) -/
theorem stop_idempotent_safe (s : ExtractorState) :
    stop (stop s) = stop s
    ∧ (stop s).audioData = none
    ∧ (stop s).audioContext = false
    ∧ (stop s).analyzer = false
    ∧ (stop s).source = false
    ∧ (stop s).dataArray = none
    ∧ (stop s).timeArray = none
    ∧ (stop s).animationFrame = false
    ∧ stop initialState = initialState :=
  ⟨rfl, rfl, rfl, rfl, rfl, rfl, rfl, rfl, rfl⟩

/-- **C6 witness.** The theorem applied at a concrete post-session state. -/
theorem stop_idempotent_safe_witness :
    stop (stop { audioData := none, audioContext := true, analyzer := true,
                 source := true, dataArray := some [], timeArray := some [],
                 animationFrame := true })
      = stop { audioData := none, audioContext := true, analyzer := true,
               source := true, dataArray := some [], timeArray := some [],
               animationFrame := true } :=
  (stop_idempotent_safe _).1

/-- **C7.** The cubic particle set is created (with exactly 45 particles)
only when the set is empty: entering `cubic` on an empty set builds 45
particles; re-running the effect in any mode afterwards — in particular
switching `cubic → waves → cubic` or `cubic → pure → cubic` — reuses the
same set unchanged, and a cubic render tick preserves the count, so the
count never drifts from 45. -/
theorem cubic_particles_init_once (gen g1 g2 : ℕ → Particle)
    (bass treble mid w h : ℚ) :
    (setupParticles Mode.cubic gen []).length = 45
    ∧ setupParticles Mode.waves g1 (setupParticles Mode.cubic gen [])
        = setupParticles Mode.cubic gen []
    ∧ setupParticles Mode.pure g1 (setupParticles Mode.cubic gen [])
        = setupParticles Mode.cubic gen []
    ∧ setupParticles Mode.cubic g2 (setupParticles Mode.cubic gen [])
        = setupParticles Mode.cubic gen []
    ∧ ((renderCubic bass treble mid w h
          (setupParticles Mode.cubic gen [])).2).length = 45 := by
  have h0 : setupParticles Mode.cubic gen [] = initParticles gen := by
    simp [setupParticles]
  have hlen : (initParticles gen).length = 45 := by
    simp [initParticles]
  refine ⟨by rw [h0]; exact hlen, by simp [setupParticles], by simp [setupParticles], ?_, ?_⟩
  · rw [h0, setupParticles, if_neg]
    simp [hlen]
  · rw [h0]
    simp [renderCubic, hlen]

/-- **C8 counterexample.** The claimed lighting rule
`floor(volume*5) > i` disagrees with the rendered one at
`volume = 1/2`, segment `i = 2`: the UI lights the segment
(`volume * 5 > i` holds, `2.5 > 2`) while `⌊2.5⌋ = 2 > 2` fails. -/
theorem segment_floor_cex :
    segmentLit (1 / 2) 2 = true ∧ ¬ ((2 : ℤ) < ⌊(1 / 2 : ℚ) * 5⌋) := by
  constructor
  · simp only [segmentLit, decide_eq_true_eq]
    norm_num
  · have h : ⌊(1 / 2 : ℚ) * 5⌋ = 2 := by
      rw [Int.floor_eq_iff] <;> norm_num
    rw [h]
    omega

/-- **C8 (amended).** Segment `i` of the 5-segment signal-strength
display is lit exactly when `volume * 5 > i` — equivalently
`ceil(volume*5) > i`, not `floor(volume*5) > i`; the two agree except
when `volume * 5` lies strictly between `i` and `i + 1`. -/
theorem segment_lit_iff_ceil (v : ℚ) (i : ℕ) :
    segmentLit v i = true ↔ (i : ℤ) < ⌈v * 5⌉ := by
  rw [segmentLit, decide_eq_true_eq, Int.lt_ceil]
  push_cast
  exact gt_iff_lt

/-- **C9.** Mode `cubic` is independent of the snapshot's `volume` and
`mid` features: two snapshots agreeing on `bass`, `treble` and the two
sample buffers produce, for the same particle state, sensitivity, clock
and random draws, the identical drawing operations and particle updates —
the `mid`-derived `hueShift` is computed but never used, and `volume` is
never read in the cubic branch. -/
theorem cubic_mode_noninterference (a1 a2 : AudioData) (sens now : ℚ)
    (rand : ℕ → ℚ) (sinf : ℚ → ℚ) (piq w h : ℚ) (ps : List Particle)
    (hb : a1.bass = a2.bass) (ht : a1.treble = a2.treble)
    (hf : a1.frequencyData = a2.frequencyData)
    (htd : a1.timeData = a2.timeData) :
    renderFrame Mode.cubic (some a1) sens now rand sinf piq w h ps
      = renderFrame Mode.cubic (some a2) sens now rand sinf piq w h ps := by
  simp only [renderFrame, hb, ht]
  rfl

/-- **C9 witness.** Two concrete snapshots differing (only) in `volume`
and `mid` render identically in mode `cubic`. -/
theorem cubic_mode_noninterference_witness :
    (⟨0, 1, 0, 1, [], []⟩ : AudioData).bass
        = (⟨1, 1, 1, 1, [], []⟩ : AudioData).bass
    ∧ (⟨0, 1, 0, 1, [], []⟩ : AudioData).treble
        = (⟨1, 1, 1, 1, [], []⟩ : AudioData).treble
    ∧ renderFrame Mode.cubic (some ⟨0, 1, 0, 1, [], []⟩) 1 0 (fun _ => 0)
        (fun _ => 0) 3 100 100 []
      = renderFrame Mode.cubic (some ⟨1, 1, 1, 1, [], []⟩) 1 0 (fun _ => 0)
        (fun _ => 0) 3 100 100 [] :=
  ⟨rfl, rfl,
   cubic_mode_noninterference ⟨0, 1, 0, 1, [], []⟩ ⟨1, 1, 1, 1, [], []⟩
     1 0 (fun _ => 0) (fun _ => 0) 3 100 100 [] rfl rfl rfl rfl⟩

/-- **C10.** The cubic per-tick particle update unconditionally moves the
particle by its velocity scaled with `1 + bass * 8`; the edge bounce only
negates the velocity component when the new position lies outside
`[0, width]` (resp. `[0, height]`) and never moves the particle back
inside — so a particle one unit from the left edge with `vx = -6` ends at
`x = -5`, outside the canvas. -/
theorem cubic_update_unclamped :
    (∀ (bass treble w h : ℚ) (p : Particle),
        (updateParticle bass treble w h p).x = p.x + p.vx * (1 + bass * 8)
      ∧ (updateParticle bass treble w h p).y = p.y + p.vy * (1 + bass * 8)
      ∧ (updateParticle bass treble w h p).vx =
          (if p.x + p.vx * (1 + bass * 8) < 0 ∨ p.x + p.vx * (1 + bass * 8) > w
           then -p.vx else p.vx)
      ∧ (updateParticle bass treble w h p).vy =
          (if p.y + p.vy * (1 + bass * 8) < 0 ∨ p.y + p.vy * (1 + bass * 8) > h
           then -p.vy else p.vy))
    ∧ (updateParticle 0 0 100 100 ⟨1, 1, 20, -6, 0, 260, 0, 0⟩).x < 0 := by
  constructor
  · intro b tr w h p
    exact ⟨rfl, rfl, rfl, rfl⟩
  · norm_num [updateParticle]

end MichiStrobe

namespace MichiStrobe

/-! ### Concrete evaluation lemmas -/

theorem maxL_cons (a : ℕ) (l : List ℕ) : maxL (a :: l) = max a (maxL l) := rfl

theorem maxL_replicate_zero (n : ℕ) : maxL (List.replicate n 0) = 0 := by
  induction n with
  | zero => rfl
  | succ n ih => rw [List.replicate_succ, maxL_cons, ih]; rfl

theorem maxL_le (l : List ℕ) (n : ℕ) (h : ∀ x ∈ l, x ≤ n) : maxL l ≤ n := by
  induction l with
  | nil => exact Nat.zero_le n
  | cons a l ih =>
    rw [maxL_cons, max_le_iff]
    exact ⟨h a (List.mem_cons_self a l), ih fun x hx => h x (List.mem_cons_of_mem a hx)⟩

theorem bassCut_128 : bassCut 128 = 20 := by
  rw [bassCut, Nat.ceil_eq_iff (by norm_num)]
  norm_num

theorem midCut_128 : midCut 128 = 64 := by
  rw [midCut, Nat.ceil_eq_iff (by norm_num)]
  norm_num

/-- One extraction tick on 128 bins all equal to 255: the bass slice is
the 20 indices `0..19` (`128 * 0.15 = 19.2`), the mid slice the 44 indices
`20..63`, the treble slice the 64 indices `64..127`, giving
`volume = 1`, `bass = 1`, `mid = 44/44.8 = 55/56`, `treble = 1`. -/
theorem computeAudioData_all255 (t : List ℕ) :
    computeAudioData (List.replicate 128 255) t =
      { volume := 1, bass := 1, mid := 55 / 56, treble := 1,
        frequencyData := List.replicate 128 255, timeData := t } := by
  have hlen : (List.replicate 128 (255 : ℕ)).length = 128 := by simp
  have hb : maxL ((List.replicate 128 (255 : ℕ)).take 20) = 255 := by decide
  have hm : (((List.replicate 128 (255 : ℕ)).take 64).drop 20).sum = 11220 := by
    decide
  have htr : ((List.replicate 128 (255 : ℕ)).drop 64).sum = 16320 := by decide
  have hv : (List.replicate 128 (255 : ℕ)).sum = 32640 := by decide
  rw [computeAudioData_eq, hlen, bassCut_128, midCut_128, hb, hm, htr, hv]
  simp only [AudioData.mk.injEq]
  norm_num

end MichiStrobe

namespace MichiStrobe

/-! ### Claims about the published features -/

/-- **C1 counterexample.** On 128 bins all equal to 255 the published
`mid` is not `1.0`: the mid slice holds 44 bins but the divisor is the
nominal `128 * 0.35 = 44.8`, so `mid = 44/44.8 = 55/56`. -/
theorem allMax_mid_not_one :
    (computeAudioData (List.replicate 128 255) (List.replicate 128 255)).mid
      ≠ 1 := by
  rw [computeAudioData_all255]
  norm_num

/-- **C1 (amended).** On 128 bins all equal to 255 the published features
are `volume = 1`, `bass = 1`, `treble = 1` and `mid = 55/56` (not `1.0`);
with sensitivity 1 in mode `pure` the rendered frame takes the
`bass > 0.5` full-screen color-flash branch and the `bass > 0.8`
glitch-lines branch (the flash fill style and the glitch line width occur
in no other branch of the mode). -/
theorem allMax_features_pure_branches (now : ℚ) (rand : ℕ → ℚ)
    (sinf : ℚ → ℚ) (piq w h : ℚ) (ps : List Particle) :
    (computeAudioData (List.replicate 128 255) (List.replicate 128 255)).volume = 1
    ∧ (computeAudioData (List.replicate 128 255) (List.replicate 128 255)).bass = 1
    ∧ (computeAudioData (List.replicate 128 255) (List.replicate 128 255)).mid = 55 / 56
    ∧ (computeAudioData (List.replicate 128 255) (List.replicate 128 255)).treble = 1
    ∧ DrawOp.fillStyleHSL (jsMod (now / 5) 360) 100 60
        ∈ (renderFrame Mode.pure
            (some (computeAudioData (List.replicate 128 255) (List.replicate 128 255)))
            1 now rand sinf piq w h ps).1
    ∧ DrawOp.lineWidth 15
        ∈ (renderFrame Mode.pure
            (some (computeAudioData (List.replicate 128 255) (List.replicate 128 255)))
            1 now rand sinf piq w h ps).1 := by
  rw [computeAudioData_all255]
  refine ⟨rfl, rfl, rfl, rfl, ?_, ?_⟩ <;>
    · simp only [renderFrame, renderPure]
      norm_num

/-- **C2 counterexample.** A 128-bin buffer whose only nonzero bin is at
index 19 refutes the claimed slice `bins[0 .. ⌊0.15*128⌋) = bins[0 .. 19)`:
the loop's condition `i < 19.2` includes index 19, so the published bass
is `1`, while the claimed formula gives `0`. -/
theorem bass_floor_slice_cex :
    (computeAudioData spike19 (List.replicate 128 0)).bass = 1
    ∧ bassFloorSlice spike19 = 0 := by
  have hlen : spike19.length = 128 := by simp [spike19]
  constructor
  · have h20 : maxL (spike19.take 20) = 255 := by decide
    rw [computeAudioData_eq, hlen, bassCut_128, h20]
    norm_num
  · have hfl : Nat.floor ((((128 : ℕ)) : ℚ) * (15 / 100)) = 19 := by
      rw [Nat.floor_eq_iff (by positivity)]
      norm_num
    have h19 : maxL (spike19.take 19) = 0 := by decide
    rw [bassFloorSlice, hlen, hfl, h19]
    norm_num

/-- **C2 (amended).** For every buffer the published bass is the peak over
the indices `i` with `i < 0.15 * N`, i.e. the first `⌈0.15 * N⌉` bins
(this equals the claimed `⌊0.15 * N⌋` only when `0.15 * N` is an integer),
divided by 255; and a buffer with a single spike at index 0 and all other
bins zero yields `bass = spikeValue / 255` for every length. -/
theorem bass_ceil_slice_and_spike :
    (∀ (f t : List ℕ),
       (computeAudioData f t).bass
         = (maxL (f.take (bassCut f.length)) : ℚ) / 255)
    ∧ (∀ (m v : ℕ) (t : List ℕ),
       (computeAudioData (v :: List.replicate m 0) t).bass = (v : ℚ) / 255) := by
  constructor
  · intro f t
    rw [computeAudioData_eq]
  · intro m v t
    rw [computeAudioData_eq]
    have hlen : (v :: List.replicate m 0).length = m + 1 := by simp
    have hpos : 0 < bassCut (m + 1) := by
      rw [bassCut]
      rw [Nat.ceil_pos]
      positivity
    obtain ⟨c, hc⟩ : ∃ c, bassCut (m + 1) = c + 1 :=
      ⟨bassCut (m + 1) - 1, by omega⟩
    rw [hlen, hc, List.take_succ_cons, maxL_cons, List.take_replicate,
      maxL_replicate_zero]
    norm_num

/-- **C3.** The published `mid` divides the mid-slice sum by the nominal
width `0.35 * N` and the published `treble` divides the upper-slice sum by
the nominal width `0.5 * N` — not by the actual slice lengths; at
`N = 128` (not a multiple of 20) the actual mid-slice length is 44 ≠ 44.8
and an actual-count divisor would give a different value. -/
theorem mid_treble_nominal_divisors :
    (∀ (f t : List ℕ),
       (computeAudioData f t).mid
         = (((f.take (midCut f.length)).drop (bassCut f.length)).sum : ℚ)
             / ((f.length : ℚ) * (35 / 100)) / 255
       ∧ (computeAudioData f t).treble
         = ((f.drop (midCut f.length)).sum : ℚ)
             / ((f.length : ℚ) * (1 / 2)) / 255)
    ∧ (computeAudioData (List.replicate 128 255) (List.replicate 128 255)).mid
        ≠ (((((List.replicate 128 (255 : ℕ)).take (midCut 128)).drop (bassCut 128)).sum : ℕ) : ℚ)
            / ((((List.replicate 128 (255 : ℕ)).take (midCut 128)).drop (bassCut 128)).length : ℚ)
            / 255 := by
  constructor
  · intro f t
    rw [computeAudioData_eq]
    exact ⟨rfl, rfl⟩
  · rw [computeAudioData_all255, bassCut_128, midCut_128]
    have hm : (((List.replicate 128 (255 : ℕ)).take 64).drop 20).sum = 11220 := by
      decide
    have hl : (((List.replicate 128 (255 : ℕ)).take 64).drop 20).length = 44 := by
      decide
    rw [hm, hl]
    norm_num

end MichiStrobe

namespace MichiStrobe

theorem sum_le_255 (l : List ℕ) (h : ∀ x ∈ l, x ≤ 255) :
    (l.sum : ℚ) ≤ 255 * (l.length : ℚ) := by
  have hn := List.sum_le_card_nsmul l 255 h
  rw [smul_eq_mul] at hn
  calc (l.sum : ℚ) ≤ ((l.length * 255 : ℕ) : ℚ) := by exact_mod_cast hn
    _ = 255 * (l.length : ℚ) := by push_cast; ring

/-- **C4.** For every byte buffer whose length is a power of two (the
session's bin count is `fftSize/2 = 128`), all four published features lie
in `[0, 1]`. -/
theorem features_bounded (f t : List ℕ) (hpow : ∃ k : ℕ, f.length = 2 ^ k)
    (hbytes : ∀ b ∈ f, b ≤ 255) :
    (0 ≤ (computeAudioData f t).volume ∧ (computeAudioData f t).volume ≤ 1)
    ∧ (0 ≤ (computeAudioData f t).bass ∧ (computeAudioData f t).bass ≤ 1)
    ∧ (0 ≤ (computeAudioData f t).mid ∧ (computeAudioData f t).mid ≤ 1)
    ∧ (0 ≤ (computeAudioData f t).treble ∧ (computeAudioData f t).treble ≤ 1) := by
  obtain ⟨k, hk⟩ := hpow
  have hL1 : 1 ≤ f.length := by
    rw [hk]
    exact Nat.one_le_two_pow
  have hLq : (1 : ℚ) ≤ (f.length : ℚ) := by exact_mod_cast hL1
  have hLpos : (0 : ℚ) < (f.length : ℚ) := by linarith
  have hble : bassCut f.length ≤ midCut f.length := bassCut_le_midCut _
  have hblow : ((f.length : ℚ)) * (15 / 100) ≤ (bassCut f.length : ℚ) :=
    Nat.le_ceil _
  have hmlow : ((f.length : ℚ)) * (1 / 2) ≤ (midCut f.length : ℚ) :=
    Nat.le_ceil _
  have hmhi : midCut f.length ≤ f.length := by
    rw [midCut, Nat.ceil_le]
    nlinarith
  rw [computeAudioData_eq]
  dsimp only
  refine ⟨⟨by positivity, ?_⟩, ⟨by positivity, ?_⟩, ⟨by positivity, ?_⟩,
    ⟨by positivity, ?_⟩⟩
  · -- volume = sum / N / 255
    rw [div_div]
    refine div_le_one_of_le ?_ (by positivity)
    have := sum_le_255 f hbytes
    nlinarith
  · -- bass = peak / 255
    refine div_le_one_of_le ?_ (by norm_num)
    have hmax : maxL (f.take (bassCut f.length)) ≤ 255 :=
      maxL_le _ _ fun x hx => hbytes x (List.take_subset _ _ hx)
    exact_mod_cast hmax
  · -- mid = slice sum / (N * 0.35) / 255
    have hsum : (((f.take (midCut f.length)).drop (bassCut f.length)).sum : ℚ)
        ≤ 255 * (((f.take (midCut f.length)).drop (bassCut f.length)).length : ℚ) :=
      sum_le_255 _ fun x hx =>
        hbytes x (List.take_subset _ _ (List.drop_subset _ _ hx))
    have hlen : ((((f.take (midCut f.length)).drop (bassCut f.length)).length : ℕ) : ℚ)
        ≤ (f.length : ℚ) * (35 / 100) := by
      rw [List.length_drop, List.length_take]
      rcases Nat.eq_zero_or_pos k with hk0 | hk1
      · have h1 : f.length = 1 := by rw [hk, hk0, pow_zero]
        have hb1 : bassCut 1 = 1 := by
          rw [bassCut, Nat.ceil_eq_iff (by norm_num)]
          push_cast
          norm_num
        have hm1 : midCut 1 = 1 := by
          rw [midCut, Nat.ceil_eq_iff (by norm_num)]
          push_cast
          norm_num
        rw [h1, hb1, hm1]
        norm_num
      · have hm2 : f.length = 2 ^ (k - 1) * 2 := by
          rw [hk, ← pow_succ]
          congr 1
          omega
        have hMq : ((2 ^ (k - 1) : ℕ) : ℚ) = (f.length : ℚ) * (1 / 2) := by
          rw [hm2]
          push_cast
          ring
        have hmid : midCut f.length = 2 ^ (k - 1) := by
          rw [midCut, ← hMq, Nat.ceil_natCast]
        have hminle : midCut f.length ≤ f.length := hmhi
        rw [min_eq_left hminle]
        rw [Nat.cast_sub hble]
        rw [hmid]
        rw [hMq]
        linarith
    have hnum : (((f.take (midCut f.length)).drop (bassCut f.length)).sum : ℚ)
        ≤ (f.length : ℚ) * (35 / 100) * 255 := by nlinarith [hsum, hlen]
    rw [div_div]
    exact div_le_one_of_le hnum (by positivity)
  · -- treble = tail sum / (N * 0.5) / 255
    have hsum : ((f.drop (midCut f.length)).sum : ℚ)
        ≤ 255 * ((f.drop (midCut f.length)).length : ℚ) :=
      sum_le_255 _ fun x hx => hbytes x (List.drop_subset _ _ hx)
    have hlen : (((f.drop (midCut f.length)).length : ℕ) : ℚ)
        ≤ (f.length : ℚ) * (1 / 2) := by
      rw [List.length_drop, Nat.cast_sub hmhi]
      linarith
    have hnum : ((f.drop (midCut f.length)).sum : ℚ)
        ≤ (f.length : ℚ) * (1 / 2) * 255 := by nlinarith [hsum, hlen]
    rw [div_div]
    exact div_le_one_of_le hnum (by positivity)

/-- **C4 witness.** The bounds at the concrete session bin count 128 with
all bins at the byte maximum. -/
theorem features_bounded_witness :
    (∃ k : ℕ, (List.replicate 128 (255 : ℕ)).length = 2 ^ k)
    ∧ (∀ b ∈ List.replicate 128 (255 : ℕ), b ≤ 255)
    ∧ ((0 ≤ (computeAudioData (List.replicate 128 255) []).volume
        ∧ (computeAudioData (List.replicate 128 255) []).volume ≤ 1)
      ∧ (0 ≤ (computeAudioData (List.replicate 128 255) []).bass
        ∧ (computeAudioData (List.replicate 128 255) []).bass ≤ 1)
      ∧ (0 ≤ (computeAudioData (List.replicate 128 255) []).mid
        ∧ (computeAudioData (List.replicate 128 255) []).mid ≤ 1)
      ∧ (0 ≤ (computeAudioData (List.replicate 128 255) []).treble
        ∧ (computeAudioData (List.replicate 128 255) []).treble ≤ 1)) :=
  ⟨⟨7, by norm_num⟩, fun b hb => (List.eq_of_mem_replicate hb).le,
   features_bounded (List.replicate 128 255) [] ⟨7, by norm_num⟩
     (fun b hb => (List.eq_of_mem_replicate hb).le)⟩

end MichiStrobe
